import Mathlib

/-!
# Verification of the fastmcp resource-template engine and Claude config updater

Shallow embedding of `src/fastmcp/resources/templates.py` and
`src/fastmcp/cli/claude.py`.

The template matcher in the source is
`pattern = self.uri_template.replace("\x7b", "(?P<").replace("\x7d", ">[^/]+)")`
followed by `re.match(f"^\x7bpattern\x7d$", uri)`.  We embed the combined effect of
this substitution plus Python's `re` engine on the pattern fragment it can
produce:

* `parsePartsAux` recovers the literal/placeholder structure after the
  substitution (a stray or nested brace, or a non-identifier group name,
  yields a pattern that `re` refuses to compile);
* `reCompile` additionally refuses templates whose literal characters are
  regex metacharacters other than `.` (for such templates the substituted
  pattern is not the intended literal matcher; we keep `.`, which `re`
  compiles as the any-character-but-newline wildcard, faithfully modelled in
  `litMatch`);
* `reMatch` is Python's backtracking semantics for the resulting pattern:
  literals match exactly (`.` matches any non-newline character), each
  placeholder `[^/]+` greedily captures one-or-more non-slash characters
  trying longest captures first, and the final `$` accepts either the end of
  input or a single trailing newline (Python's `$` semantics under
  `re.match`).
-/

set_option maxRecDepth 4096

/-- One element of the compiled pattern: a literal character or a named
capture slot produced from a placeholder. -/
inductive Seg where
  | lit (c : Char)
  | hole (name : String)
deriving DecidableEq, Repr

/-- Literal-character matching of the substituted pattern: the one regex
metacharacter we keep, `.`, matches any character except newline; every other
literal matches exactly itself. -/
def litMatch (c d : Char) : Bool :=
  if c = '.' then d != '\n' else c == d

/-- Greedy capture for one `[^/]+` slot: try the capture of length `k`
first (longest), then backtrack to shorter ones; captures must be non-empty.
`cont` is the matcher for the rest of the pattern. -/
def tryCap (n : String) (cont : List Char → Option (List (String × String)))
    (cs : List Char) : Nat → Option (List (String × String))
  | 0 => none
  | Nat.succ k =>
    match cont (cs.drop (k + 1)) with
    | some m => some ((n, String.mk (cs.take (k + 1))) :: m)
    | none => tryCap n cont cs k

/-- Anchored backtracking matcher for the substituted pattern, with Python's
`$` semantics: at the end of the pattern the remaining input must be empty or
a single newline. On success returns the named captures in order of
appearance (the `groupdict`). -/
def reMatch : List Seg → List Char → Option (List (String × String))
  | [], cs => if cs = [] ∨ cs = ['\n'] then some [] else none
  | Seg.lit _ :: _, [] => none
  | Seg.lit c :: ps, d :: cs => if litMatch c d then reMatch ps cs else none
  | Seg.hole n :: ps, cs =>
    tryCap n (fun rest => reMatch ps rest) cs (cs.takeWhile (fun c => c != '/')).length

/-- Scan of the template string into literal/hole parts, tracking whether we
are inside a placeholder (`acc` holds the reversed name so far).  Returns
`none` exactly for brace structures whose substituted pattern `re` refuses:
an unterminated placeholder, a stray closing brace, or a brace nested inside
a placeholder name. -/
def parsePartsAux : List Char → Option (List Char) → Option (List Seg)
  | [], none => some []
  | [], some _ => none
  | c :: rest, none =>
    if c = '\x7b' then parsePartsAux rest (some [])
    else if c = '\x7d' then none
    else (parsePartsAux rest none).map (fun ps => Seg.lit c :: ps)
  | c :: rest, some acc =>
    if c = '\x7d' then
      (parsePartsAux rest none).map (fun ps => Seg.hole (String.mk acc.reverse) :: ps)
    else if c = '\x7b' then none
    else parsePartsAux rest (some (c :: acc))

def parseParts (t : String) : Option (List Seg) := parsePartsAux t.data none

/-- Regex metacharacters that we do not model as literals: a template literal
drawn from this set changes the structure of the substituted pattern, so
`reCompile` rejects it (see the module comment).  `.` is deliberately not in
this set. -/
def regexSpecial (c : Char) : Bool :=
  c == '\\' || c == '^' || c == '$' || c == '|' || c == '?' || c == '*' ||
  c == '+' || c == '(' || c == ')' || c == '[' || c == ']'

def litsOk : List Seg → Bool
  | [] => true
  | Seg.lit c :: ps => !(regexSpecial c) && litsOk ps
  | Seg.hole _ :: ps => litsOk ps

/-- A Python group name must be a valid identifier (ASCII fragment). -/
def identOk (s : String) : Bool :=
  match s.data with
  | [] => false
  | c :: rest => (c.isAlpha || c == '_') && rest.all (fun d => d.isAlphanum || d == '_')

def namesOk : List Seg → Bool
  | [] => true
  | Seg.lit _ :: ps => namesOk ps
  | Seg.hole n :: ps => identOk n && namesOk ps

def holeNames : List Seg → List String
  | [] => []
  | Seg.lit _ :: ps => holeNames ps
  | Seg.hole n :: ps => n :: holeNames ps

def nodupB : List String → Bool
  | [] => true
  | x :: xs => !(xs.contains x) && nodupB xs

/-- Compilation of the substituted pattern.  `some ps` means `re.compile`
succeeds and the pattern denotes the literal/hole sequence `ps` (duplicate
group names and invalid group names are `re.error`s). -/
def reCompile (t : String) : Option (List Seg) :=
  match parseParts t with
  | none => none
  | some ps =>
    if namesOk ps && nodupB (holeNames ps) && litsOk ps then some ps else none

def tmplParts (t : String) : List Seg := (reCompile t).getD []

/-- Parts whose literals are exact (no `.` wildcard): for these the
substituted pattern matches literals verbatim. -/
def plainParts : List Seg → Bool
  | [] => true
  | Seg.lit c :: ps => (c != '.') && plainParts ps
  | Seg.hole _ :: ps => plainParts ps

/-- A template that compiles and whose literals are all exact. -/
def plainTemplate (t : String) : Bool :=
  match reCompile t with
  | some ps => plainParts ps
  | none => false

/-- `instB ps cs m = true` iff `m` is a substitution witness for template
parts `ps` producing exactly the character list `cs`: the names of `m` are
the hole names in order, each value is non-empty and slash-free, and
replacing each hole by its value yields `cs`. -/
def instB : List Seg → List Char → List (String × String) → Bool
  | [], cs, m => cs.isEmpty && m.isEmpty
  | Seg.lit c :: ps, cs, m =>
    match cs with
    | [] => false
    | d :: cs2 => c == d && instB ps cs2 m
  | Seg.hole n :: ps, cs, m =>
    match m with
    | [] => false
    | (n2, v) :: m2 =>
      n == n2 && !(v.data.isEmpty) && v.data.all (fun c => c != '/') &&
      v.data.isPrefixOf cs && instB ps (cs.drop v.data.length) m2

/-! ## Lemmas about the matcher -/

theorem litMatch_refl (c : Char) : litMatch c c = true := by
  unfold litMatch
  by_cases h : c = '.'
  · subst h; decide
  · simp [h]

theorem litMatch_plain {c d : Char} (hc : (c != '.') = true) (h : litMatch c d = true) :
    c = d := by
  unfold litMatch at h
  have hc2 : ¬ c = '.' := by simpa using hc
  rw [if_neg hc2] at h
  simpa using h

theorem takeWhile_len_le (p : Char → Bool) :
    ∀ cs : List Char, (cs.takeWhile p).length ≤ cs.length := by
  intro cs
  induction cs with
  | nil => simp
  | cons a as ih =>
    simp only [List.takeWhile]
    cases p a
    · simp
    · simp; exact ih

theorem take_mem_of_le_takeWhile (p : Char → Bool) :
    ∀ (cs : List Char) (j : Nat), j ≤ (cs.takeWhile p).length →
      ∀ c ∈ cs.take j, p c = true := by
  intro cs
  induction cs with
  | nil => simp
  | cons a as ih =>
    intro j hj c hc
    cases j with
    | zero => simp at hc
    | succ j2 =>
      simp only [List.takeWhile] at hj
      cases hpa : p a with
      | false => rw [hpa] at hj; simp at hj
      | true =>
        rw [hpa] at hj
        simp only [List.length_cons] at hj
        simp only [List.take_succ_cons, List.mem_cons] at hc
        rcases hc with hc | hc
        · subst hc; exact hpa
        · exact ih j2 (by omega) c hc

theorem takeWhile_append_len_ge (p : Char → Bool) :
    ∀ (v w : List Char), v.all p = true →
      v.length ≤ ((v ++ w).takeWhile p).length := by
  intro v
  induction v with
  | nil => simp
  | cons a as ih =>
    intro w hall
    simp only [List.all_cons, Bool.and_eq_true] at hall
    simp only [List.cons_append, List.takeWhile_cons, hall.1, if_true, List.length_cons]
    have := ih w hall.2
    omega

theorem isPrefixOf_take : ∀ (l : List Char) (j : Nat), (l.take j).isPrefixOf l = true := by
  intro l
  induction l with
  | nil => intro j; cases j <;> simp [List.isPrefixOf]
  | cons a as ih =>
    intro j
    cases j with
    | zero => simp [List.isPrefixOf]
    | succ j2 => simp [List.isPrefixOf, ih j2]

theorem isPrefixOf_append_self : ∀ (v r : List Char), v.isPrefixOf (v ++ r) = true := by
  intro v
  induction v with
  | nil => intro r; simp [List.isPrefixOf]
  | cons a as ih => intro r; simp [List.isPrefixOf, ih r]

theorem eq_append_of_isPrefixOf :
    ∀ (v w : List Char), v.isPrefixOf w = true → ∃ r, w = v ++ r := by
  intro v
  induction v with
  | nil => intro w _; exact ⟨w, rfl⟩
  | cons a as ih =>
    intro w h
    cases w with
    | nil => simp [List.isPrefixOf] at h
    | cons b bs =>
      simp only [List.isPrefixOf, Bool.and_eq_true, beq_iff_eq] at h
      obtain ⟨r, hr⟩ := ih bs h.2
      exact ⟨r, by rw [h.1, hr]; rfl⟩

theorem tryCap_sound :
    ∀ (k : Nat) (n : String) (cont : List Char → Option (List (String × String)))
      (cs : List Char) (m : List (String × String)),
      tryCap n cont cs k = some m →
      ∃ j m2, 1 ≤ j ∧ j ≤ k ∧ cont (cs.drop j) = some m2 ∧
        m = (n, String.mk (cs.take j)) :: m2 := by
  intro k
  induction k with
  | zero => intro n cont cs m h; simp [tryCap] at h
  | succ k2 ih =>
    intro n cont cs m h
    unfold tryCap at h
    cases hc : cont (cs.drop (k2 + 1)) with
    | some m2 =>
      rw [hc] at h
      simp only [Option.some.injEq] at h
      exact ⟨k2 + 1, m2, by omega, Nat.le_refl _, hc, h.symm⟩
    | none =>
      rw [hc] at h
      obtain ⟨j, m2, h1, h2, h3, h4⟩ := ih n cont cs m h
      exact ⟨j, m2, h1, by omega, h3, h4⟩

theorem tryCap_complete :
    ∀ (k : Nat) (n : String) (cont : List Char → Option (List (String × String)))
      (cs : List Char) (j : Nat),
      1 ≤ j → j ≤ k → (cont (cs.drop j)).isSome = true →
      (tryCap n cont cs k).isSome = true := by
  intro k
  induction k with
  | zero => intro n cont cs j h1 h2 _; omega
  | succ k2 ih =>
    intro n cont cs j h1 h2 h3
    unfold tryCap
    cases hc : cont (cs.drop (k2 + 1)) with
    | some m2 => simp
    | none =>
      simp only
      by_cases hj : j = k2 + 1
      · subst hj; rw [hc] at h3; simp at h3
      · exact ih n cont cs j h1 (by omega) h3

theorem reMatch_sound :
    ∀ (ps : List Seg) (cs : List Char) (m : List (String × String)),
      plainParts ps = true → reMatch ps cs = some m →
      instB ps cs m = true ∨ ∃ pre, cs = pre ++ ['\n'] ∧ instB ps pre m = true := by
  intro ps
  induction ps with
  | nil =>
    intro cs m _ h
    simp only [reMatch] at h
    split at h
    · next hor =>
      simp only [Option.some.injEq] at h
      subst h
      rcases hor with hc | hc
      · left; subst hc; rfl
      · right; exact ⟨[], hc, rfl⟩
    · exact absurd h (by simp)
  | cons s ps2 ih =>
    intro cs m hp h
    cases s with
    | lit c =>
      simp only [plainParts, Bool.and_eq_true] at hp
      cases cs with
      | nil => simp [reMatch] at h
      | cons d cs2 =>
        simp only [reMatch] at h
        split at h
        · next hld =>
          have hcd := litMatch_plain hp.1 hld
          subst hcd
          rcases ih cs2 m hp.2 h with hi | ⟨pre, hpre, hi⟩
          · left; simp [instB, hi]
          · right
            exact ⟨c :: pre, by rw [hpre]; rfl, by simp [instB, hi]⟩
        · exact absurd h (by simp)
    | hole n =>
      simp only [plainParts] at hp
      simp only [reMatch] at h
      obtain ⟨j, m2, hj1, hjK, hcont, hm⟩ := tryCap_sound _ n _ cs m h
      have hKlen : (cs.takeWhile (fun c => c != '/')).length ≤ cs.length :=
        takeWhile_len_le _ cs
      have hjlen : j ≤ cs.length := le_trans hjK hKlen
      have hlen : (cs.take j).length = j := by
        rw [List.length_take]; omega
      have hne : cs.take j ≠ [] := by
        intro he; rw [he] at hlen; simp at hlen; omega
      have hnonempty : ((cs.take j).isEmpty) = false := by
        cases hcase : cs.take j with
        | nil => exact absurd hcase hne
        | cons a as => rfl
      have hslash : (cs.take j).all (fun c => c != '/') = true := by
        rw [List.all_eq_true]
        exact fun c hc => take_mem_of_le_takeWhile _ cs j hjK c hc
      rcases ih (cs.drop j) m2 hp hcont with hi | ⟨pre2, hpre2, hi⟩
      · left
        subst hm
        simp only [instB, Bool.and_eq_true, beq_self_eq_true, true_and]
        refine ⟨⟨⟨by simp [hnonempty], hslash⟩, isPrefixOf_take cs j⟩, ?_⟩
        show instB ps2 (cs.drop (cs.take j).length) m2 = true
        rw [hlen]
        exact hi
      · right
        subst hm
        refine ⟨cs.take j ++ pre2, ?_, ?_⟩
        · conv_lhs => rw [← List.take_append_drop j cs]
          rw [hpre2, List.append_assoc]
        · simp only [instB, Bool.and_eq_true, beq_self_eq_true, true_and]
          refine ⟨⟨⟨by simp [hnonempty], hslash⟩, isPrefixOf_append_self _ _⟩, ?_⟩
          show instB ps2 ((cs.take j ++ pre2).drop (cs.take j).length) m2 = true
          rw [List.drop_left]
          exact hi

theorem reMatch_complete :
    ∀ (ps : List Seg) (cs : List Char) (m : List (String × String)) (tl : List Char),
      (tl = [] ∨ tl = ['\n']) → instB ps cs m = true →
      (reMatch ps (cs ++ tl)).isSome = true := by
  intro ps
  induction ps with
  | nil =>
    intro cs m tl htl hi
    simp only [instB, Bool.and_eq_true, List.isEmpty_iff] at hi
    rw [hi.1]
    rcases htl with h | h <;> subst h <;> decide
  | cons s ps2 ih =>
    intro cs m tl htl hi
    cases s with
    | lit c =>
      cases cs with
      | nil => simp [instB] at hi
      | cons d cs2 =>
        simp only [instB, Bool.and_eq_true, beq_iff_eq] at hi
        obtain ⟨hcd, hrest⟩ := hi
        subst hcd
        simp only [List.cons_append, reMatch, litMatch_refl c, if_true]
        exact ih cs2 m tl htl hrest
    | hole n =>
      cases m with
      | nil => simp [instB] at hi
      | cons nv m2 =>
        obtain ⟨n2, v⟩ := nv
        simp only [instB, Bool.and_eq_true] at hi
        obtain ⟨⟨⟨⟨_, hne⟩, hslash⟩, hpre⟩, hrest⟩ := hi
        obtain ⟨r, hr⟩ := eq_append_of_isPrefixOf v.data cs hpre
        have hvlen : 1 ≤ v.data.length := by
          cases hv : v.data with
          | nil => rw [hv] at hne; simp at hne
          | cons a as => simp [hv]
        have hdrop : cs.drop v.data.length = r := by
          rw [hr, List.drop_left]
        rw [hdrop] at hrest
        simp only [reMatch]
        refine tryCap_complete _ n _ (cs ++ tl) v.data.length hvlen ?_ ?_
        · rw [hr, List.append_assoc]
          exact takeWhile_append_len_ge _ v.data (r ++ tl) hslash
        · have : (cs ++ tl).drop v.data.length = r ++ tl := by
            rw [hr, List.append_assoc, List.drop_left]
          rw [this]
          exact ih r m2 tl htl hrest

/-- A candidate list of characters is in the acceptance set of the
substituted pattern: it is a substitution instance of the template, or a
substitution instance followed by one trailing newline (accepted by `$`). -/
def Accepts (ps : List Seg) (cs : List Char) : Prop :=
  (∃ m, instB ps cs m = true) ∨
  ∃ pre m, cs = pre ++ ['\n'] ∧ instB ps pre m = true

theorem reMatch_isSome_iff_accepts (ps : List Seg) (cs : List Char)
    (hp : plainParts ps = true) :
    (reMatch ps cs).isSome = true ↔ Accepts ps cs := by
  constructor
  · intro h
    obtain ⟨m, hm⟩ := Option.isSome_iff_exists.mp h
    rcases reMatch_sound ps cs m hp hm with hi | ⟨pre, hpre, hi⟩
    · exact Or.inl ⟨m, hi⟩
    · exact Or.inr ⟨pre, m, hpre, hi⟩
  · intro h
    rcases h with ⟨m, hm⟩ | ⟨pre, m, hpre, hm⟩
    · have := reMatch_complete ps cs m [] (Or.inl rfl) hm
      simpa using this
    · subst hpre
      exact reMatch_complete ps pre m ['\n'] (Or.inr rfl) hm

/-! ## The dynamic Python fragment used by `templates.py`

Producer functions are callables with typed parameters.  `validate_call`
(pydantic) wraps a callable so that the raw string arguments extracted by
`matches` are coerced to the declared parameter types before the body runs;
a coercion failure raises `ValidationError` and the body is never entered.
A producer body may itself raise (modelled as returning an error) or return
a value.  Nondeterminism of a body across invocations is modelled by the
extra `Nat` argument, a "world" index identifying the invocation context;
`async` producers are awaited by `create_resource`, so their results are
modelled directly as values. -/

/-- Parameter annotation types supported by the model. -/
inductive PyType where
  | str
  | int
deriving DecidableEq, Repr

/-- Runtime values produced by coercion or returned by producers. -/
inductive Value where
  | str (s : String)
  | int (n : Int)
deriving DecidableEq, Repr

/-- Python exceptions as far as `templates.py` distinguishes them:
`validationError` is pydantic's `ValidationError` raised by the
`validate_call` wrapper; `raised k d` is an arbitrary exception of class `k`
raised by a producer body (or by `re`); `valueError m ctx` is the `ValueError`
raised by `create_resource`'s `except` clause, with the implicitly chained
`__context__` exception `ctx`. -/
inductive PyErr where
  | validationError (detail : String)
  | raised (kind : String) (detail : String)
  | valueError (msg : String) (context : PyErr)
deriving DecidableEq, Repr

/-- The exception's class name, what `except SomeClass` dispatches on. -/
def PyErr.kind : PyErr → String
  | .validationError _ => "ValidationError"
  | .raised k _ => k
  | .valueError _ _ => "ValueError"

/-- `str(e)`: the message used when the exception is interpolated into an
f-string. -/
def PyErr.str : PyErr → String
  | .validationError d => d
  | .raised _ d => d
  | .valueError m _ => m

instance exceptDecEq {α β : Type} [DecidableEq α] [DecidableEq β] :
    DecidableEq (Except α β) := fun x y =>
  match x, y with
  | .error a, .error b =>
    if h : a = b then .isTrue (by rw [h]) else .isFalse (fun he => h (by cases he; rfl))
  | .ok a, .ok b =>
    if h : a = b then .isTrue (by rw [h]) else .isFalse (fun he => h (by cases he; rfl))
  | .error _, .ok _ => .isFalse (fun he => by cases he)
  | .ok _, .error _ => .isFalse (fun he => by cases he)

def exErr? {α β : Type} : Except α β → Option α
  | .error e => some e
  | .ok _ => none

def exOk? {α β : Type} : Except α β → Option β
  | .error _ => none
  | .ok v => some v

def digitsVal (ds : List Char) : Nat :=
  ds.foldl (fun a c => a * 10 + (c.toNat - '0'.toNat)) 0

/-- Lax integer coercion of a decimal string (pydantic accepts signed
decimal strings for `int` parameters). -/
def parseInt (s : String) : Option Int :=
  match s.data with
  | '-' :: ds => if ds.isEmpty then none
      else if ds.all Char.isDigit then some (-(digitsVal ds : Int)) else none
  | '+' :: ds => if ds.isEmpty then none
      else if ds.all Char.isDigit then some ((digitsVal ds : Int)) else none
  | ds => if ds.isEmpty then none
      else if ds.all Char.isDigit then some ((digitsVal ds : Int)) else none

/-- Coerce one raw captured string to the declared parameter type. -/
def coerce : PyType → String → Option Value
  | .str, s => some (.str s)
  | .int, s => (parseInt s).map .int

/-- Argument validation performed by the `validate_call` wrapper: every
keyword must be a declared parameter, every declared parameter must be
supplied and coercible.  Returns the coerced arguments or the first
validation failure message. -/
def validateArgsSig : List (String × PyType) → List (String × String) →
    Except String (List (String × Value))
  | [], _ => .ok []
  | (n, ty) :: sig2, params =>
    match params.lookup n with
    | none => .error (n ++ ": field required")
    | some raw =>
      match coerce ty raw with
      | none => .error (n ++ ": could not be coerced")
      | some v =>
        match validateArgsSig sig2 params with
        | .error d => .error d
        | .ok args => .ok ((n, v) :: args)

def validateArgs (sig : List (String × PyType)) (params : List (String × String)) :
    Except String (List (String × Value)) :=
  match params.find? (fun p => !(sig.any (fun q => q.1 == p.1))) with
  | some p => .error ("unexpected keyword argument: " ++ p.1)
  | none => validateArgsSig sig params

/-- A Python function object: `__name__`, `__doc__`, the typed signature
that `TypeAdapter` reads, and the body. -/
structure PyFunc where
  name : String
  doc : Option String
  sig : List (String × PyType)
  run : List (String × Value) → Nat → Except PyErr Value

/-- A callable taking raw keyword arguments, as stored in a template. -/
structure PyCallable where
  run : List (String × String) → Nat → Except PyErr Value

/-- pydantic's `validate_call` wrapper: validate and coerce the raw keyword
arguments against the declared signature, then enter the body; on coercion
failure raise `ValidationError` without entering the body. -/
def validate_call (f : PyFunc) : PyCallable :=
  ⟨fun params w =>
    match validateArgs f.sig params with
    | .error d => .error (.validationError d)
    | .ok args => f.run args w⟩

/-! ## `ResourceTemplate` (`src/fastmcp/resources/templates.py`) -/

structure ResourceTemplate where
  uri_template : String
  name : String
  description : Option String
  mime_type : String
  func : PyCallable
  parameters : List (String × PyType)

/-- Python falsiness of an optional string (`None` and `""` are falsy). -/
def strTruthy : Option String → Bool
  | none => false
  | some s => !(s.isEmpty)

/-- `ResourceTemplate.from_function`: choose the name (`name or
func.__name__`), reject anonymous lambdas, derive the parameter schema from
the signature, wrap the function with `validate_call`, and build the
template.  The template string itself is not inspected. -/
def ResourceTemplate.from_function (func : PyFunc) (uri_template : String)
    (name : Option String) (description : Option String) (mime_type : Option String) :
    Except PyErr ResourceTemplate :=
  let func_name := match name with
    | some s => if s.isEmpty then func.name else s
    | none => func.name
  if func_name = "<lambda>" then
    .error (.raised "ValueError" "You must provide a name for lambda functions")
  else
    .ok {
      uri_template := uri_template,
      name := func_name,
      description := some (if strTruthy description then description.getD ""
        else if strTruthy func.doc then func.doc.getD "" else ""),
      mime_type := if strTruthy mime_type then mime_type.getD "" else "text/plain",
      func := validate_call func,
      parameters := func.sig }

/-- `ResourceTemplate.matches`: substitute the template into a pattern and
run `re.match` anchored at both ends.  If the substituted pattern is not a
valid regular expression, `re.match` raises `re.error`; otherwise the result
is the `groupdict` of the match, or `None` when the URI does not match. -/
def ResourceTemplate.matches (t : ResourceTemplate) (uri : String) :
    Except PyErr (Option (List (String × String))) :=
  match reCompile t.uri_template with
  | none => .error (.raised "re.error" "invalid pattern")
  | some ps => .ok (reMatch ps uri.data)

/-- Modelled from the spec: `FunctionResource` (the class lives in
`fastmcp/resources/types.py`, which is not under `src/`).  Per the spec a
Resource carries the concrete `uri`, `name`, `description`, `mimeType`, and
a zero-argument content accessor returning the already-computed content.
The accessor receives a world index (the environment at read time) so that
re-invocation would be observable; the captured closure ignores it. -/
structure FunctionResource where
  uri : String
  name : String
  description : Option String
  mime_type : String
  func : Nat → Except PyErr Value

/-- `ResourceTemplate.create_resource`: call the validated function with the
extracted parameters (awaiting if it is a coroutine), capture the result in
a closure, and build a `FunctionResource` copying the template's metadata;
any exception is re-raised as
`ValueError(f"Error creating resource from template: ...")` with the
original exception implicitly chained as its context. -/
def ResourceTemplate.create_resource (t : ResourceTemplate) (uri : String)
    (params : List (String × String)) (w : Nat) : Except PyErr FunctionResource :=
  match t.func.run params w with
  | .ok result =>
    .ok {
      uri := uri,
      name := t.name,
      description := t.description,
      mime_type := t.mime_type,
      func := fun _ => Except.ok result }
  | .error e =>
    .error (.valueError ("Error creating resource from template: " ++ e.str) e)

/-! ## `src/fastmcp/cli/claude.py`

The filesystem and platform are passed in explicitly: `platform` is
`sys.platform`, `home` is `Path.home()`, `claudeDirExists` is whether the
platform-specific Claude directory exists, and `file` is the state of
`claude_desktop_config.json`: `none` when the file does not exist,
`some none` when it exists but `json.loads` raises (the `except` clause
catches it), and `some (some c)` when it parses to `c`.  `resolve` is
`Path(...).resolve()`.  The function returns the reported `bool` together
with the resulting file state.  JSON objects are association lists in
insertion order, looked up with `alookup`; a Python `dict` assignment keeps
the position of an existing key and appends a new one. -/

def alookup {α : Type} (k : String) : List (String × α) → Option α
  | [] => none
  | p :: rest => if p.1 = k then some p.2 else alookup k rest

/-- Python dict-merge as in the expression built from existing and new env
vars: keys of `a` in order with values overridden by `b`, then keys of `b`
not in `a`. -/
def dictMerge (a b : List (String × String)) : List (String × String) :=
  a.map (fun p => (p.1, (alookup p.1 b).getD p.2)) ++
  b.filter (fun p => (alookup p.1 a).isNone)

structure ServerConfig where
  command : String
  args : List String
  env : Option (List (String × String))
deriving DecidableEq, Repr

structure ClaudeConfig where
  mcpServers : Option (List (String × ServerConfig))
deriving DecidableEq, Repr

/-- Python dict assignment on an association list. -/
def dictSet (l : List (String × ServerConfig)) (k : String) (v : ServerConfig) :
    List (String × ServerConfig) :=
  if (alookup k l).isSome then l.map (fun p => if p.1 = k then (k, v) else p)
  else l ++ [(k, v)]

/-- Python truthiness of the optional env-var dict (`None` and the empty
dict are falsy). -/
def pyTruthyEnv : Option (List (String × String)) → Bool
  | none => false
  | some l => !(l.isEmpty)

/-- `get_claude_config_path`: the per-platform directory, or `None` on an
unsupported platform or when the directory does not exist. -/
def get_claude_config_path (platform home : String) (claudeDirExists : Bool) :
    Option String :=
  if platform = "win32" then
    if claudeDirExists then some (home ++ "/AppData/Roaming/Claude") else none
  else if platform = "darwin" then
    if claudeDirExists then some (home ++ "/Library/Application Support/Claude") else none
  else none

/-- `file_spec.rsplit(":", 1)` when a colon is present. -/
def rsplitColon (s : String) : Option (String × String) :=
  if s.data.contains ':' then
    let post := (s.data.reverse.takeWhile (fun c => c != ':')).reverse
    let pre := (s.data.reverse.drop (post.length + 1)).reverse
    some (String.mk pre, String.mk post)
  else none

/-- The `uv run` argument list built by `update_claude_config`. -/
def buildArgs (resolve : String → String) (file_spec : String)
    (with_editable : Option String) (with_packages : Option (List String)) :
    List String :=
  ["run", "--with", "fastmcp"] ++
  (match with_editable with
   | some e => ["--with-editable", e]
   | none => []) ++
  (match with_packages with
   | some pkgs => (pkgs.map (fun p => if p.isEmpty then [] else ["--with", p])).flatten
   | none => []) ++
  ["fastmcp", "run",
    match rsplitColon file_spec with
    | some pr => resolve pr.1 ++ ":" ++ pr.2
    | none => resolve file_spec]

/-- `update_claude_config`.  The whole body after the existence checks runs
inside `try/except Exception`, so every outcome is a returned boolean; the
only state change is the rewrite of the parsed config on the success path. -/
def update_claude_config (platform home : String) (claudeDirExists : Bool)
    (resolve : String → String) (file : Option (Option ClaudeConfig))
    (file_spec server_name : String) (with_editable : Option String)
    (with_packages : Option (List String))
    (env_vars : Option (List (String × String))) :
    Bool × Option (Option ClaudeConfig) :=
  match get_claude_config_path platform home claudeDirExists with
  | none => (false, file)
  | some _ =>
    match file with
    | none => (false, none)
    | some none => (false, some none)
    | some (some config) =>
      let servers := config.mcpServers.getD []
      let env2 : Option (List (String × String)) :=
        match alookup server_name servers with
        | some entry =>
          match entry.env with
          | some existing =>
            if pyTruthyEnv env_vars then some (dictMerge existing (env_vars.getD []))
            else some existing
          | none => env_vars
        | none => env_vars
      let server_config : ServerConfig :=
        { command := "uv",
          args := buildArgs resolve file_spec with_editable with_packages,
          env := if pyTruthyEnv env2 then env2 else none }
      (true, some (some { mcpServers := some (dictSet servers server_name server_config) }))

/-! ### Association-list lemmas -/

theorem alookup_append {α : Type} (k : String) :
    ∀ (x y : List (String × α)),
      alookup k (x ++ y) =
        match alookup k x with
        | some v => some v
        | none => alookup k y := by
  intro x y
  induction x with
  | nil => simp [alookup]
  | cons p rest ih =>
    by_cases h : p.1 = k
    · simp [alookup, h]
    · simp [alookup, h, ih]

theorem alookup_filter_keep {α : Type} (k : String) (P : String × α → Bool) :
    ∀ (l : List (String × α)), (∀ p ∈ l, p.1 = k → P p = true) →
      alookup k (l.filter P) = alookup k l := by
  intro l
  induction l with
  | nil => simp
  | cons p rest ih =>
    intro hP
    by_cases hk : p.1 = k
    · rw [List.filter_cons, hP p (by simp) hk]
      simp [alookup, hk]
    · rw [List.filter_cons]
      cases hp : P p with
      | true =>
        simp only [if_true]
        rw [alookup, alookup, if_neg hk, if_neg hk]
        exact ih (fun q hq => hP q (by simp [hq]))
      | false =>
        simp only [Bool.false_eq_true, if_false]
        rw [alookup, if_neg hk]
        exact ih (fun q hq => hP q (by simp [hq]))

theorem alookup_map_none (k : String) (b : List (String × String)) :
    ∀ (a : List (String × String)), alookup k a = none →
      alookup k (a.map (fun p => (p.1, (alookup p.1 b).getD p.2))) = none := by
  intro a
  induction a with
  | nil => simp [alookup]
  | cons p rest ih =>
    intro h
    rw [alookup] at h
    by_cases hk : p.1 = k
    · rw [if_pos hk] at h; exact absurd h (by simp)
    · rw [if_neg hk] at h
      simp only [List.map_cons, alookup, hk, if_false]
      exact ih h

theorem alookup_map_some (k : String) (b : List (String × String)) :
    ∀ (a : List (String × String)) (va : String), alookup k a = some va →
      alookup k (a.map (fun p => (p.1, (alookup p.1 b).getD p.2))) =
        some ((alookup k b).getD va) := by
  intro a
  induction a with
  | nil => intro va h; simp [alookup] at h
  | cons p rest ih =>
    intro va h
    rw [alookup] at h
    by_cases hk : p.1 = k
    · rw [if_pos hk] at h
      simp only [Option.some.injEq] at h
      simp only [List.map_cons, alookup, hk, if_true]
      rw [h]
    · rw [if_neg hk] at h
      simp only [List.map_cons, alookup, hk, if_false]
      exact ih va h

theorem dictMerge_alookup (k : String) (a b : List (String × String)) :
    alookup k (dictMerge a b) =
      match alookup k b with
      | some v => some v
      | none => alookup k a := by
  unfold dictMerge
  rw [alookup_append]
  cases ha : alookup k a with
  | some va =>
    rw [alookup_map_some k b a va ha]
    cases alookup k b <;> simp
  | none =>
    rw [alookup_map_none k b a ha]
    simp only
    rw [alookup_filter_keep k _ b (fun q _ hqk => by rw [hqk, ha]; rfl)]
    cases alookup k b <;> simp [ha]

theorem alookup_map_set_some (k : String) (v : ServerConfig) :
    ∀ (l : List (String × ServerConfig)), (alookup k l).isSome = true →
      alookup k (l.map (fun p => if p.1 = k then (k, v) else p)) = some v := by
  intro l
  induction l with
  | nil => simp [alookup]
  | cons p rest ih =>
    intro h
    by_cases hk : p.1 = k
    · simp [alookup, hk]
    · rw [alookup, if_neg hk] at h
      simp only [List.map_cons, if_neg hk, alookup, hk, if_false]
      exact ih h

theorem alookup_map_set_other (k s : String) (v : ServerConfig) (h : s ≠ k) :
    ∀ (l : List (String × ServerConfig)),
      alookup s (l.map (fun p => if p.1 = k then (k, v) else p)) = alookup s l := by
  intro l
  induction l with
  | nil => simp
  | cons p rest ih =>
    by_cases hk : p.1 = k
    · simp only [List.map_cons, if_pos hk, alookup]
      rw [if_neg (fun he => h he.symm), if_neg (by rw [hk]; exact fun he => h he.symm)]
      exact ih
    · simp only [List.map_cons, if_neg hk, alookup]
      by_cases hps : p.1 = s
      · rw [if_pos hps, if_pos hps]
      · rw [if_neg hps, if_neg hps]
        exact ih

theorem dictSet_alookup_self (l : List (String × ServerConfig)) (k : String)
    (v : ServerConfig) : alookup k (dictSet l k v) = some v := by
  unfold dictSet
  by_cases h : (alookup k l).isSome = true
  · rw [if_pos h]
    exact alookup_map_set_some k v l h
  · rw [if_neg h, alookup_append]
    cases hl : alookup k l with
    | some w => rw [hl] at h; simp at h
    | none => simp [alookup]

theorem dictSet_alookup_other (l : List (String × ServerConfig)) (k s : String)
    (v : ServerConfig) (h : s ≠ k) : alookup s (dictSet l k v) = alookup s l := by
  unfold dictSet
  by_cases hin : (alookup k l).isSome = true
  · rw [if_pos hin]
    exact alookup_map_set_other k s v h l
  · rw [if_neg hin, alookup_append]
    cases hl : alookup s l with
    | some w => simp
    | none =>
      simp only
      rw [alookup, if_neg (fun he => h he.symm), alookup]

/-! ## Concrete producers and templates used in the witnesses -/

/-- A typed producer returning the string `sunny` for any city. -/
def weatherFunc : PyFunc :=
  { name := "get_weather", doc := some "Get weather for a city.",
    sig := [("city", PyType.str)],
    run := fun _ _ => .ok (.str "sunny") }

/-- The template `from_function(weatherFunc, "weather://.../current")`
produces (checked by `C8`-style reasoning, spelled out here as a literal). -/
def weatherTemplate : ResourceTemplate :=
  { uri_template := "weather://\x7bcity\x7d/current",
    name := "get_weather",
    description := some "Get weather for a city.",
    mime_type := "text/plain",
    func := validate_call weatherFunc,
    parameters := [("city", PyType.str)] }

/-- The resource produced by resolving `weather://paris/current`. -/
def weatherResource : FunctionResource :=
  { uri := "weather://paris/current",
    name := "get_weather",
    description := some "Get weather for a city.",
    mime_type := "text/plain",
    func := fun _ => Except.ok (.str "sunny") }

/-- A typed producer used for registration examples. -/
def readItemFunc : PyFunc :=
  { name := "read_item", doc := none,
    sig := [("x", PyType.str)],
    run := fun _ _ => .ok (.str "item") }

/-- A producer with a required integer parameter. -/
def intParamFunc : PyFunc :=
  { name := "get_data", doc := none,
    sig := [("x", PyType.int)],
    run := fun _ _ => .ok (.str "ran") }

/-- A producer whose body always raises `RuntimeError("boom")`. -/
def boomFunc : PyFunc :=
  { name := "boom_resource", doc := none,
    sig := [("x", PyType.str)],
    run := fun _ _ => .error (.raised "RuntimeError" "boom") }

/-- A nondeterministic producer: its result depends on the invocation
world. -/
def clockFunc : PyFunc :=
  { name := "now", doc := none,
    sig := [("x", PyType.str)],
    run := fun _ w => .ok (.int w) }

def clockTemplate : ResourceTemplate :=
  { uri_template := "clock://\x7bx\x7d",
    name := "now",
    description := some "",
    mime_type := "text/plain",
    func := validate_call clockFunc,
    parameters := [("x", PyType.str)] }

/-- The resource resolved from the clock template at invocation world 5. -/
def clockResource : FunctionResource :=
  { uri := "clock://tick",
    name := "now",
    description := some "",
    mime_type := "text/plain",
    func := fun _ => Except.ok (.int 5) }

/-- The template registered from `intParamFunc` (its `from_function`
image). -/
def intTemplate : ResourceTemplate :=
  { uri_template := "data://\x7bx\x7d",
    name := "get_data",
    description := some "",
    mime_type := "text/plain",
    func := validate_call intParamFunc,
    parameters := [("x", PyType.int)] }

/-- The template registered from `boomFunc` (its `from_function` image). -/
def boomTemplate : ResourceTemplate :=
  { uri_template := "boom://\x7bx\x7d",
    name := "boom_resource",
    description := some "",
    mime_type := "text/plain",
    func := validate_call boomFunc,
    parameters := [("x", PyType.str)] }

/-- An anonymous lambda producer. -/
def lambdaFunc : PyFunc :=
  { name := "<lambda>", doc := none,
    sig := [("x", PyType.str)],
    run := fun _ _ => .ok (.str "anon") }

/-- A template object with a malformed (unterminated) placeholder, as the
source happily constructs. -/
def unbalancedTemplate : ResourceTemplate :=
  { uri_template := "a/\x7bx",
    name := "read_item",
    description := none,
    mime_type := "text/plain",
    func := validate_call readItemFunc,
    parameters := [("x", PyType.str)] }

/-! ## Claims -/

/-- C1, counterexample.  The claim says that for every substitution of
non-empty slash-free strings into the placeholders, `matches` succeeds and
returns exactly the substituted values.  For the template with placeholders
`a` and `b` separated by the literal `x`, the URI `xxxx` is the substitution
instance with `a = x` and `b = xx` (first conjunct), yet `matches` returns
`a = xx`, `b = x` — the greedy matcher recovers a different decomposition,
not the substituted values. -/
theorem C1_counterexample :
    instB (tmplParts "\x7ba\x7dx\x7bb\x7d") "xxxx".data [("a", "x"), ("b", "xx")] = true ∧
    (exOk? (ResourceTemplate.from_function readItemFunc "\x7ba\x7dx\x7bb\x7d" none none none)).map
      (fun t => t.matches "xxxx")
      = some (.ok (some [("a", "xx"), ("b", "x")])) ∧
    ¬ ([("a", "xx"), ("b", "x")] : List (String × String)) = [("a", "x"), ("b", "xx")] := by
  refine ⟨by decide, by decide, by decide⟩

/-- C1, amended.  For templates whose substituted pattern compiles and whose
literals are free of regex metacharacters: (soundness) whenever `matches`
succeeds, the returned mapping is itself a valid substitution — non-empty,
slash-free values for the placeholders in order — reproducing the candidate
URI, or reproducing it up to one trailing newline which Python's `$` also
accepts; (completeness) every substitution instance is matched.  The mapping
returned for an ambiguous URI is the greedy one, not necessarily the
substitution the caller performed. -/
theorem C1_matcher_accepts_substitution_instances (t : ResourceTemplate) (uri : String)
    (hp : plainTemplate t.uri_template = true) :
    (∀ m, t.matches uri = .ok (some m) →
      instB (tmplParts t.uri_template) uri.data m = true ∨
      ∃ pre, uri.data = pre ++ ['\n'] ∧ instB (tmplParts t.uri_template) pre m = true) ∧
    (∀ m, instB (tmplParts t.uri_template) uri.data m = true →
      ∃ m2, t.matches uri = .ok (some m2)) := by
  unfold plainTemplate at hp
  cases hc : reCompile t.uri_template with
  | none => rw [hc] at hp; exact absurd hp (by simp)
  | some ps =>
    rw [hc] at hp
    have hparts : tmplParts t.uri_template = ps := by
      unfold tmplParts; rw [hc]; rfl
    have hmatch : t.matches uri = .ok (reMatch ps uri.data) := by
      unfold ResourceTemplate.matches; rw [hc]
    rw [hparts, hmatch]
    constructor
    · intro m hm
      simp only [Except.ok.injEq] at hm
      exact reMatch_sound ps uri.data m hp hm
    · intro m hm
      have := reMatch_complete ps uri.data m [] (Or.inl rfl) hm
      rw [List.append_nil] at this
      obtain ⟨m2, hm2⟩ := Option.isSome_iff_exists.mp this
      exact ⟨m2, by rw [hm2]⟩

/-- C1, witness: the weather template is plain; on `weather://paris/current`
the returned mapping is a valid substitution witness, and the substitution
instance with `city = paris` is indeed matched. -/
theorem C1_witness :
    (instB (tmplParts weatherTemplate.uri_template) "weather://paris/current".data
        [("city", "paris")] = true ∨
      ∃ pre, "weather://paris/current".data = pre ++ ['\n'] ∧
        instB (tmplParts weatherTemplate.uri_template) pre [("city", "paris")] = true) ∧
    (∃ m2, weatherTemplate.matches "weather://paris/current" = .ok (some m2)) := by
  have h := C1_matcher_accepts_substitution_instances weatherTemplate
    "weather://paris/current" (by decide)
  exact ⟨h.1 [("city", "paris")] (by decide), h.2 [("city", "paris")] (by decide)⟩

/-- C2, counterexample.  The claim says registration-time compilation rejects
duplicate placeholder names and unbalanced braces.  In the source,
`from_function` never inspects the template string: registering with the
duplicate-parameter template `a/.x./.x.` (braces elided) and with the
unbalanced template `a/.x` both succeed. -/
theorem C2_counterexample :
    (exOk? (ResourceTemplate.from_function readItemFunc "a/\x7bx\x7d/\x7bx\x7d" none none none)).isSome
      = true ∧
    (exOk? (ResourceTemplate.from_function readItemFunc "a/\x7bx" none none none)).isSome
      = true := by
  refine ⟨by decide, by decide⟩

/-- C2, amended.  Registration performs no validation of the template
string: `from_function` succeeds for any template whenever the producer has
a usable name.  Malformed templates surface only at match time, where the
substituted pattern fails to compile and `matches` raises `re.error` — in
particular for the duplicate-parameter template and for the
unbalanced-brace template, on every candidate URI. -/
theorem C2_no_registration_validation (f : PyFunc) (ut uri : String)
    (h : f.name ≠ "<lambda>") :
    (exOk? (ResourceTemplate.from_function f ut none none none)).isSome = true ∧
    (∀ t : ResourceTemplate,
      t.uri_template = "a/\x7bx\x7d/\x7bx\x7d" ∨ t.uri_template = "a/\x7bx" →
      t.matches uri = .error (.raised "re.error" "invalid pattern")) := by
  constructor
  · unfold ResourceTemplate.from_function
    rw [if_neg h]
    rfl
  · intro t ht
    unfold ResourceTemplate.matches
    rcases ht with ht | ht <;> rw [ht]
    · rw [show reCompile "a/\x7bx\x7d/\x7bx\x7d" = none from by decide]
    · rw [show reCompile "a/\x7bx" = none from by decide]

/-- C2, witness: instantiated for the named producer `read_item`, the
duplicate-parameter template string, and the candidate URI `a/b`. -/
theorem C2_witness :
    (exOk? (ResourceTemplate.from_function readItemFunc "a/\x7bx\x7d/\x7bx\x7d" none none none)).isSome
      = true ∧
    unbalancedTemplate.matches "a/b" = .error (.raised "re.error" "invalid pattern") := by
  have h := C2_no_registration_validation readItemFunc "a/\x7bx\x7d/\x7bx\x7d" "a/b" (by decide)
  exact ⟨h.1, h.2 unbalancedTemplate (Or.inr (by decide))⟩

/-- C3, counterexample.  The claim says `matches` never raises, for every
template and candidate URI.  For a template with an unterminated
placeholder, the substituted pattern does not compile and `matches` raises
`re.error` instead of returning `None`. -/
theorem C3_counterexample :
    unbalancedTemplate.matches "a/zzz" = .error (.raised "re.error" "invalid pattern") := by
  decide

/-- C3, amended.  For every template whose substituted pattern compiles
(balanced braces, identifier names, no duplicates) and whose literals are
free of regex metacharacters, `matches` never raises — it returns `ok` on
every candidate URI — and it returns `None` exactly when the URI is outside
the acceptance set (no substitution instance, allowing the one trailing
newline accepted by `$`).  Absence of a match is thus a non-exceptional
outcome distinguishable from failure. -/
theorem C3_no_match_returns_none (t : ResourceTemplate) (uri : String)
    (hp : plainTemplate t.uri_template = true) :
    (∃ r, t.matches uri = .ok r) ∧
    (t.matches uri = .ok none ↔ ¬ Accepts (tmplParts t.uri_template) uri.data) := by
  unfold plainTemplate at hp
  cases hc : reCompile t.uri_template with
  | none => rw [hc] at hp; exact absurd hp (by simp)
  | some ps =>
    rw [hc] at hp
    have hparts : tmplParts t.uri_template = ps := by
      unfold tmplParts; rw [hc]; rfl
    have hmatch : t.matches uri = .ok (reMatch ps uri.data) := by
      unfold ResourceTemplate.matches; rw [hc]
    rw [hparts, hmatch]
    refine ⟨⟨_, rfl⟩, ?_⟩
    have hiff := reMatch_isSome_iff_accepts ps uri.data hp
    constructor
    · intro h
      simp only [Except.ok.injEq] at h
      intro hacc
      have := hiff.mpr hacc
      rw [h] at this
      simp at this
    · intro hacc
      cases hr : reMatch ps uri.data with
      | none => rfl
      | some m => exact absurd (hiff.mp (by rw [hr]; rfl)) hacc

/-- C3, witness: the weather template is well-formed, so matching the
non-matching URI `weather://paris` raises nothing, and the `None` result
coincides with the URI being outside the acceptance set. -/
theorem C3_witness :
    (∃ r, weatherTemplate.matches "weather://paris" = .ok r) ∧
    ¬ Accepts (tmplParts weatherTemplate.uri_template) "weather://paris".data := by
  have h := C3_no_match_returns_none weatherTemplate "weather://paris" (by decide)
  exact ⟨h.1, h.2.mp (by decide)⟩

/-- C4.  Every successful resolution produces a Resource whose `uri` is the
input candidate URI verbatim, whose `name`, `description` and `mime_type`
are copied unchanged from the template, and whose content accessor returns
the producer's return value (for every read). -/
theorem C4_resource_copies_template_fields (t : ResourceTemplate) (uri : String)
    (params : List (String × String)) (w : Nat) (r : FunctionResource)
    (h : t.create_resource uri params w = .ok r) :
    r.uri = uri ∧ r.name = t.name ∧ r.description = t.description ∧
    r.mime_type = t.mime_type ∧
    ∃ v, t.func.run params w = .ok v ∧ ∀ w2, r.func w2 = .ok v := by
  unfold ResourceTemplate.create_resource at h
  cases hr : t.func.run params w with
  | ok v =>
    rw [hr] at h
    simp only [Except.ok.injEq] at h
    subst h
    exact ⟨rfl, rfl, rfl, rfl, v, rfl, fun _ => rfl⟩
  | error e => rw [hr] at h; cases h

/-- C4, witness: resolving `weather://paris/current` against the weather
template bound to a producer returning `sunny` yields a resource with the
verbatim URI, the template's metadata, and an accessor returning `sunny`. -/
theorem C4_witness :
    weatherResource.uri = "weather://paris/current" ∧
    weatherResource.name = weatherTemplate.name ∧
    weatherResource.description = weatherTemplate.description ∧
    weatherResource.mime_type = weatherTemplate.mime_type ∧
    ∃ v, weatherTemplate.func.run [("city", "paris")] 0 = .ok v ∧
      ∀ w2, weatherResource.func w2 = .ok v :=
  C4_resource_copies_template_fields weatherTemplate "weather://paris/current"
    [("city", "paris")] 0 weatherResource rfl

/-- C5.  The resource content is fixed at construction: the accessor is
constant across reads (it ignores the world at read time), it always returns
the single value the producer computed at resolution time, and the producer
is invoked exactly once — any callable agreeing with the template's at the
single resolution invocation yields the identical resource, so behaviour at
other invocation worlds (nondeterminism) is irrelevant. -/
theorem C5_content_snapshot (t : ResourceTemplate) (uri : String)
    (params : List (String × String)) (w : Nat) (r : FunctionResource)
    (h : t.create_resource uri params w = .ok r) :
    (∀ w1 w2, r.func w1 = r.func w2) ∧
    (∃ v, t.func.run params w = .ok v ∧ ∀ wread, r.func wread = .ok v) ∧
    (∀ g : PyCallable, g.run params w = t.func.run params w →
      ResourceTemplate.create_resource { t with func := g } uri params w = .ok r) := by
  unfold ResourceTemplate.create_resource at h ⊢
  cases hr : t.func.run params w with
  | ok v =>
    rw [hr] at h
    simp only [Except.ok.injEq] at h
    subst h
    refine ⟨fun _ _ => rfl, ⟨v, rfl, fun _ => rfl⟩, ?_⟩
    intro g hg
    simp only
    rw [hg]
  | error e => rw [hr] at h; cases h

/-- C5, witness: the clock producer is genuinely nondeterministic (its value
is the invocation world), the resource resolved at world `5` always reads
`int 5`, and only the producer's behaviour at the single resolution call
matters.  The extra final conjunct exhibits the nondeterminism: at world `6`
the producer would have returned `int 6`. -/
theorem C5_witness :
    ((∀ w1 w2, clockResource.func w1 = clockResource.func w2) ∧
      (∃ v, clockTemplate.func.run [("x", "tick")] 5 = .ok v ∧
        ∀ wread, clockResource.func wread = .ok v) ∧
      (∀ g : PyCallable, g.run [("x", "tick")] 5 = clockTemplate.func.run [("x", "tick")] 5 →
        ResourceTemplate.create_resource { clockTemplate with func := g }
          "clock://tick" [("x", "tick")] 5 = .ok clockResource)) ∧
    clockTemplate.func.run [("x", "tick")] 6 = .ok (.int 6) :=
  ⟨C5_content_snapshot clockTemplate "clock://tick" [("x", "tick")] 5 clockResource rfl, rfl⟩

/-- C6, counterexample.  The claim says resolution fails with a
`ParameterValidationFailed` error.  Resolving the integer-parameter template
against the captured string `abc` does fail, but the surfaced exception is
the generic `ValueError` of `create_resource`'s blanket `except` clause —
its class is `ValueError`, the same class used for producer failures; the
validation failure survives only as the chained context. -/
theorem C6_counterexample :
    (exOk? (ResourceTemplate.from_function intParamFunc "data://\x7bx\x7d" none none none)).map
      (fun t => exErr? (t.create_resource "data://abc" [("x", "abc")] 0))
      = some (some (.valueError ("Error creating resource from template: x: could not be coerced")
          (.validationError "x: could not be coerced"))) ∧
    PyErr.kind (.valueError ("Error creating resource from template: x: could not be coerced")
        (.validationError "x: could not be coerced")) = "ValueError" := by
  refine ⟨by decide, by decide⟩

/-- C6, amended.  When the extracted parameters fail validation against the
producer's declared signature, resolution fails — the surfaced error is the
`ValueError` wrapper whose chained context is the pydantic
`ValidationError` — and the producer body is never invoked: the failure is
the same for every possible body `run1`. -/
theorem C6_validation_failure_skips_producer
    (nm : String) (doc : Option String) (sig : List (String × PyType))
    (run1 : List (String × Value) → Nat → Except PyErr Value)
    (ut uri : String) (t : ResourceTemplate) (params : List (String × String))
    (w : Nat) (d : String)
    (hreg : ResourceTemplate.from_function ⟨nm, doc, sig, run1⟩ ut none none none = .ok t)
    (hval : validateArgs sig params = .error d) :
    t.create_resource uri params w =
      .error (.valueError ("Error creating resource from template: " ++ d)
        (.validationError d)) := by
  unfold ResourceTemplate.from_function at hreg
  by_cases hl : nm = "<lambda>"
  · rw [if_pos (by exact hl)] at hreg; cases hreg
  · rw [if_neg (by exact hl)] at hreg
    simp only [Except.ok.injEq] at hreg
    subst hreg
    unfold ResourceTemplate.create_resource
    show (match (validate_call ⟨nm, doc, sig, run1⟩).run params w with
      | .ok result => _ | .error e => _) = _
    unfold validate_call
    simp only [hval]
    rfl

/-- C6, witness: the integer-parameter template resolved against the
captured string `abc`. -/
theorem C6_witness :
    intTemplate.create_resource "data://abc" [("x", "abc")] 0 =
      .error (.valueError ("Error creating resource from template: x: could not be coerced")
        (.validationError "x: could not be coerced")) :=
  C6_validation_failure_skips_producer "get_data" none [("x", PyType.int)]
    intParamFunc.run "data://\x7bx\x7d" "data://abc" intTemplate [("x", "abc")] 0
    "x: could not be coerced" rfl rfl

/-- C7, counterexample.  The claim says a producer failure surfaces with a
kind distinguishable from a parameter-validation failure.  A raising
producer and a failing validation both surface as exceptions of the same
class `ValueError`: the kind does not distinguish them. -/
theorem C7_counterexample :
    (exOk? (ResourceTemplate.from_function boomFunc "boom://\x7bx\x7d" none none none)).map
      (fun t => (exErr? (t.create_resource "boom://hi" [("x", "hi")] 0)).map PyErr.kind)
      = some (some "ValueError") ∧
    (exOk? (ResourceTemplate.from_function intParamFunc "data://\x7bx\x7d" none none none)).map
      (fun t => (exErr? (t.create_resource "data://abc" [("x", "abc")] 0)).map PyErr.kind)
      = some (some "ValueError") := by
  refine ⟨by decide, by decide⟩

/-- C7, amended.  When the producer raises during resolution, the failure
surfaced is the `ValueError` wrapper with the original exception preserved
as the chained context and interpolated into the message — distinguishable
from `matches` returning `None` (no exception at all), but of the same
exception class `ValueError` as a parameter-validation failure; only the
chained cause tells the two apart. -/
theorem C7_producer_failure_wrapped (f : PyFunc) (ut uri : String)
    (t : ResourceTemplate) (params : List (String × String)) (w : Nat)
    (args : List (String × Value)) (e : PyErr)
    (hreg : ResourceTemplate.from_function f ut none none none = .ok t)
    (hval : validateArgs f.sig params = .ok args)
    (hrun : f.run args w = .error e) :
    t.create_resource uri params w =
      .error (.valueError ("Error creating resource from template: " ++ e.str) e) ∧
    PyErr.kind (.valueError ("Error creating resource from template: " ++ e.str) e)
      = "ValueError" := by
  unfold ResourceTemplate.from_function at hreg
  by_cases hl : f.name = "<lambda>"
  · rw [if_pos (by exact hl)] at hreg; cases hreg
  · rw [if_neg (by exact hl)] at hreg
    simp only [Except.ok.injEq] at hreg
    subst hreg
    unfold ResourceTemplate.create_resource
    show ((match (validate_call f).run params w with
      | .ok result => _ | .error e => _) = _) ∧ _
    unfold validate_call
    simp only [hval, hrun]
    exact ⟨by trivial, by trivial⟩

/-- C7, witness: the boom template's producer raises `RuntimeError`; the
surfaced failure is the `ValueError` wrapper carrying it as context. -/
theorem C7_witness :
    boomTemplate.create_resource "boom://hi" [("x", "hi")] 0 =
      .error (.valueError ("Error creating resource from template: boom")
        (.raised "RuntimeError" "boom")) ∧
    PyErr.kind (.valueError ("Error creating resource from template: boom")
      (.raised "RuntimeError" "boom")) = "ValueError" :=
  C7_producer_failure_wrapped boomFunc "boom://\x7bx\x7d" "boom://hi" boomTemplate
    [("x", "hi")] 0 [("x", Value.str "hi")] (.raised "RuntimeError" "boom") rfl rfl rfl

/-- C8.  Template creation from a producer defaults the template name to the
producer's `__name__` when no explicit name is supplied, and fails with the
`ValueError` about lambda functions when the producer is an anonymous lambda
and no explicit name was supplied. -/
theorem C8_name_default_and_lambda_rejection (f : PyFunc) (ut : String)
    (ds mt : Option String) :
    (f.name ≠ "<lambda>" →
      ∃ t, ResourceTemplate.from_function f ut none ds mt = .ok t ∧ t.name = f.name) ∧
    (f.name = "<lambda>" →
      ResourceTemplate.from_function f ut none ds mt =
        .error (.raised "ValueError" "You must provide a name for lambda functions")) := by
  unfold ResourceTemplate.from_function
  constructor
  · intro h
    rw [if_neg (by exact h)]
    exact ⟨_, rfl, rfl⟩
  · intro h
    rw [if_pos (by exact h)]

/-- C8, witness: the named weather producer registers under its own
identifier; the anonymous lambda is rejected. -/
theorem C8_witness :
    (∃ t, ResourceTemplate.from_function weatherFunc "weather://\x7bcity\x7d/current"
        none none none = .ok t ∧ t.name = "get_weather") ∧
    ResourceTemplate.from_function lambdaFunc "x/\x7by\x7d" none none none =
      .error (.raised "ValueError" "You must provide a name for lambda functions") := by
  have h1 := C8_name_default_and_lambda_rejection weatherFunc
    "weather://\x7bcity\x7d/current" none none
  have h2 := C8_name_default_and_lambda_rejection lambdaFunc "x/\x7by\x7d" none none
  obtain ⟨t, h3, h4⟩ := h1.1 (by decide)
  exact ⟨⟨t, h3, h4.trans rfl⟩, h2.2 rfl⟩

/-! ### Supporting lemmas for the config claims -/

def envOf : Option ServerConfig → List (String × String)
  | some e => e.env.getD []
  | none => []

theorem filter_alookup_nil (b : List (String × String)) :
    b.filter (fun p => (alookup p.1 ([] : List (String × String))).isNone) = b := by
  induction b with
  | nil => rfl
  | cons p r ih => rw [List.filter_cons]; simp [alookup, ih]

theorem dictMerge_nil_left (b : List (String × String)) : dictMerge [] b = b := by
  unfold dictMerge
  rw [List.map_nil, List.nil_append, filter_alookup_nil]

theorem dictMerge_isEmpty_false (a b : List (String × String))
    (hb : b.isEmpty = false) : (dictMerge a b).isEmpty = false := by
  cases a with
  | nil => rw [dictMerge_nil_left]; exact hb
  | cons p r => simp [dictMerge]

theorem pyTruthyEnv_false_alookup (k : String)
    (ev : Option (List (String × String))) (h : pyTruthyEnv ev = false) :
    alookup k (ev.getD []) = none := by
  cases ev with
  | none => rfl
  | some l =>
    unfold pyTruthyEnv at h
    cases l with
    | nil => rfl
    | cons p r => simp at h

theorem pyTruthyEnv_true_exists (ev : Option (List (String × String)))
    (h : pyTruthyEnv ev = true) : ∃ nv, ev = some nv ∧ nv.isEmpty = false := by
  cases ev with
  | none => simp [pyTruthyEnv] at h
  | some l =>
    unfold pyTruthyEnv at h
    exact ⟨l, rfl, by simpa using h⟩

/-- C9.  The config upsert loses no data: when an update succeeds on a
parsed config, every server other than the updated one keeps exactly its
entry, and if the updated server already had stored env variables then the
rewritten entry's env is their merge with the newly supplied ones —
per key, a newly supplied value wins, otherwise the stored value is kept. -/
theorem C9_upsert_preserves_config (platform home : String) (resolve : String → String)
    (config out : ClaudeConfig) (file_spec server_name : String)
    (we : Option String) (wp : Option (List String))
    (env_vars : Option (List (String × String)))
    (h : update_claude_config platform home true resolve (some (some config))
      file_spec server_name we wp env_vars = (true, some (some out))) :
    (∀ s, s ≠ server_name →
      alookup s (out.mcpServers.getD []) = alookup s (config.mcpServers.getD [])) ∧
    (∀ entry existing, alookup server_name (config.mcpServers.getD []) = some entry →
      entry.env = some existing →
      ∀ k, alookup k (envOf (alookup server_name (out.mcpServers.getD []))) =
        match alookup k (env_vars.getD []) with
        | some v => some v
        | none => alookup k existing) := by
  unfold update_claude_config at h
  cases hpath : get_claude_config_path platform home true with
  | none => rw [hpath] at h; simp at h
  | some p =>
    rw [hpath] at h
    simp only [Prod.mk.injEq, Option.some.injEq, true_and] at h
    have hout : out.mcpServers.getD [] =
        dictSet (config.mcpServers.getD []) server_name
          { command := "uv",
            args := buildArgs resolve file_spec we wp,
            env :=
              if pyTruthyEnv
                (match alookup server_name (config.mcpServers.getD []) with
                 | some entry =>
                   match entry.env with
                   | some existing =>
                     if pyTruthyEnv env_vars then
                       some (dictMerge existing (env_vars.getD []))
                     else some existing
                   | none => env_vars
                 | none => env_vars) = true then
                (match alookup server_name (config.mcpServers.getD []) with
                 | some entry =>
                   match entry.env with
                   | some existing =>
                     if pyTruthyEnv env_vars then
                       some (dictMerge existing (env_vars.getD []))
                     else some existing
                   | none => env_vars
                 | none => env_vars)
              else none } := by
      rw [← h]
      rfl
    constructor
    · intro s hs
      rw [hout]
      exact dictSet_alookup_other _ server_name s _ hs
    · intro entry existing hentry henv k
      have henv2 : (match alookup server_name (config.mcpServers.getD []) with
          | some entry =>
            match entry.env with
            | some existing =>
              if pyTruthyEnv env_vars = true then some (dictMerge existing (env_vars.getD []))
              else some existing
            | none => env_vars
          | none => env_vars)
          = if pyTruthyEnv env_vars = true then some (dictMerge existing (env_vars.getD []))
            else some existing := by
        simp only [hentry, henv]
      rw [henv2] at hout
      rw [hout, dictSet_alookup_self]
      simp only [envOf]
      cases ht : pyTruthyEnv env_vars with
      | true =>
        rw [if_pos (rfl : (true : Bool) = true)]
        obtain ⟨nv, hnv, hnvne⟩ := pyTruthyEnv_true_exists env_vars ht
        subst hnv
        rw [show (Option.getD (some nv) [] : List (String × String)) = nv from rfl]
        have hne : (dictMerge existing nv).isEmpty = false :=
          dictMerge_isEmpty_false existing nv hnvne
        rw [if_pos (show pyTruthyEnv (some (dictMerge existing nv)) = true by
          simp [pyTruthyEnv, hne])]
        rw [show (Option.getD (some (dictMerge existing nv)) [] : List (String × String))
          = dictMerge existing nv from rfl]
        rw [dictMerge_alookup]
      | false =>
        rw [if_neg (show ¬ (false : Bool) = true by simp)]
        have hrhs : alookup k (env_vars.getD []) = none :=
          pyTruthyEnv_false_alookup k env_vars ht
        rw [hrhs]
        cases hex : existing.isEmpty with
        | false =>
          rw [if_pos (show pyTruthyEnv (some existing) = true by
            simp [pyTruthyEnv, hex])]
          rfl
        | true =>
          rw [if_neg (show ¬ pyTruthyEnv (some existing) = true by
            simp [pyTruthyEnv, hex])]
          have hnil : existing = [] := by
            cases existing with
            | nil => rfl
            | cons q r => simp at hex
          rw [hnil]
          rfl

/-- C9, witness: updating server `old` (stored env `A=1, B=2`) with new env
`B=9, C=3` on a config that also holds server `other`: the other server's
entry is unchanged, the stored `A` survives, and the new `B` wins. -/
theorem C9_witness :
    alookup "other"
        (ClaudeConfig.mk (some
          [("old", ServerConfig.mk "uv" ["run", "--with", "fastmcp", "fastmcp", "run", "srv.py"]
              (some [("A", "1"), ("B", "9"), ("C", "3")])),
           ("other", ServerConfig.mk "cmd" ["x"] none)]) |>.mcpServers.getD [])
      = some (ServerConfig.mk "cmd" ["x"] none) ∧
    alookup "A"
        (envOf (alookup "old"
          (ClaudeConfig.mk (some
            [("old", ServerConfig.mk "uv" ["run", "--with", "fastmcp", "fastmcp", "run", "srv.py"]
                (some [("A", "1"), ("B", "9"), ("C", "3")])),
             ("other", ServerConfig.mk "cmd" ["x"] none)]) |>.mcpServers.getD [])))
      = some "1" ∧
    alookup "B"
        (envOf (alookup "old"
          (ClaudeConfig.mk (some
            [("old", ServerConfig.mk "uv" ["run", "--with", "fastmcp", "fastmcp", "run", "srv.py"]
                (some [("A", "1"), ("B", "9"), ("C", "3")])),
             ("other", ServerConfig.mk "cmd" ["x"] none)]) |>.mcpServers.getD [])))
      = some "9" := by
  have h := C9_upsert_preserves_config "darwin" "/Users/u" (fun s => s)
    (ClaudeConfig.mk (some
      [("old", ServerConfig.mk "uv" [] (some [("A", "1"), ("B", "2")])),
       ("other", ServerConfig.mk "cmd" ["x"] none)]))
    (ClaudeConfig.mk (some
      [("old", ServerConfig.mk "uv" ["run", "--with", "fastmcp", "fastmcp", "run", "srv.py"]
          (some [("A", "1"), ("B", "9"), ("C", "3")])),
       ("other", ServerConfig.mk "cmd" ["x"] none)]))
    "srv.py" "old" none none (some [("B", "9"), ("C", "3")]) (by decide)
  refine ⟨(h.1 "other" (by decide)).trans (by decide), ?_, ?_⟩
  · exact (h.2 (ServerConfig.mk "uv" [] (some [("A", "1"), ("B", "2")]))
      [("A", "1"), ("B", "2")] (by decide) rfl "A").trans (by decide)
  · exact (h.2 (ServerConfig.mk "uv" [] (some [("A", "1"), ("B", "2")]))
      [("A", "1"), ("B", "2")] (by decide) rfl "B").trans (by decide)

/-- C10.  `update_claude_config` reports failure as a returned boolean, and
on the guard paths it touches no file: on an unsupported platform it returns
`False` leaving the file state as it was; when the config file does not
exist it returns `False` and the file remains absent (it is never created);
when the file exists but is unparsable, the `json.loads` exception is caught
and surfaced as `False` with the file untouched. -/
theorem C10_failure_paths_touch_nothing (platform home : String) (dirE : Bool)
    (resolve : String → String) (file : Option (Option ClaudeConfig))
    (file_spec server_name : String) (we : Option String)
    (wp : Option (List String)) (ev : Option (List (String × String))) :
    (platform ≠ "win32" ∧ platform ≠ "darwin" →
      update_claude_config platform home dirE resolve file file_spec server_name we wp ev
        = (false, file)) ∧
    (file = none →
      update_claude_config platform home dirE resolve file file_spec server_name we wp ev
        = (false, none)) ∧
    (file = some none →
      update_claude_config platform home dirE resolve file file_spec server_name we wp ev
        = (false, some none)) := by
  refine ⟨?_, ?_, ?_⟩
  · intro hplat
    unfold update_claude_config get_claude_config_path
    rw [if_neg hplat.1, if_neg hplat.2]
  · intro hfile
    subst hfile
    unfold update_claude_config
    cases get_claude_config_path platform home dirE <;> rfl
  · intro hfile
    subst hfile
    unfold update_claude_config
    cases get_claude_config_path platform home dirE <;> rfl

/-- C10, witness: on `linux` nothing changes and `False` is returned; a
missing config file is never created; an unparsable file is reported as
`False` with the caught exception not propagating. -/
theorem C10_witness :
    update_claude_config "linux" "/home/u" true (fun s => s)
        (some (some (ClaudeConfig.mk none))) "srv.py" "s" none none none
      = (false, some (some (ClaudeConfig.mk none))) ∧
    update_claude_config "darwin" "/Users/u" true (fun s => s) none "srv.py" "s" none none none
      = (false, none) ∧
    update_claude_config "darwin" "/Users/u" true (fun s => s) (some none) "srv.py" "s"
        none none none
      = (false, some none) := by
  refine ⟨?_, ?_, ?_⟩
  · exact (C10_failure_paths_touch_nothing "linux" "/home/u" true (fun s => s)
      (some (some (ClaudeConfig.mk none))) "srv.py" "s" none none none).1 (by decide)
  · exact (C10_failure_paths_touch_nothing "darwin" "/Users/u" true (fun s => s)
      none "srv.py" "s" none none none).2.1 rfl
  · exact (C10_failure_paths_touch_nothing "darwin" "/Users/u" true (fun s => s)
      (some none) "srv.py" "s" none none none).2.2 rfl
